import Mathlib

/-!
# Traductor-braille: `script.js`

A shallow embedding of `src/script.js` (camera session, capture, segmentation,
per-slice decision, word assembly and the three button handlers) together with
the properties of the specification that are settled against it.

Modelling conventions.

* JavaScript strings are sequences of UTF-16 code units; every string of the script lies in
  the Basic Multilingual Plane, so a `String` (a list of `Char`) is the same sequence.
* The global variables of the script and the DOM properties it reads or writes are the fields
  of `State`.  Calls into the platform that only produce effects (`speak`, `alert`,
  `ctx.getImageData`) are recorded in log fields.
* Results supplied by the platform (the outcome of `getUserMedia`, the current video frame,
  the outcome of `model.predict` on a slice) are parameters of the operations.
* Built-ins of the language (`parseInt`, `isNaN`, `Math.floor`, string indexing, `||`) follow
  ECMAScript; `parseInt` returns a double, so its result is rounded.
* `predictWordFromImage` is the body of the function along the path on which every host call
  returns.  `predictWordFromImageOnHost` is the same body with the two host calls that can
  throw inside the loop: `ctx.getImageData` on a rectangle of width or height 0, and
  `model.predict` on a model that did not load.  The two agree whenever no call throws.
* `startCamera` suspends at `await getUserMedia`; `startCameraRequest` is the part before
  that point and `startCameraSettle` the part after it, so that calls can overlap.
-/

namespace Braille

/-! ## Alphabet table -/

/-- The string literal `letras` of `getLetterFromIndex`. -/
def letras : String := "AÁBCDEÉFGHIÍJKLMNÑOÓPQRSTUÚVWXYZ"

/-- JavaScript `s[index]` for an integer `index`: the one-unit string at that position, or
`undefined` (`none`) when the index is negative or not below the length. -/
def strAt (s : String) (index : Int) : Option String :=
  if 0 ≤ index then (s.toList[index.toNat]?).map String.singleton else none

/-- JavaScript `x || d` where `x` is a string or `undefined`: `x` when it is truthy
(defined and not the empty string), `d` otherwise. -/
def orDefault (x : Option String) (d : String) : String :=
  match x with
  | some s => if s = "" then d else s
  | none => d

/-- The function `getLetterFromIndex(index)`: `letras[index] || "?"`. -/
def getLetterFromIndex (index : Int) : String :=
  orDefault (strAt letras index) "?"

/-! ## Per-slice decision -/

/-- What the loop body reads from one `model.predict` call: `index` is
`prediction.argMax(-1).dataSync()[0]` and `prob` is `probs[index]`.  A probability is a
finite number, and comparison of finite floating-point numbers is comparison of their
values, so `prob` is a rational. -/
structure Prediction where
  index : Nat
  prob : ℚ

/-- The `if (probs[index] < 0.6) ... else ...` of the loop body: the string pushed onto
`word`. -/
def sliceDecision (p : Prediction) : String :=
  if p.prob < 0.6 then "?" else getLetterFromIndex p.index

/-! ## Page state -/

/-- The rectangle `(sx, sy, sw, sh)` passed to `ctx.getImageData`. -/
structure Rect where
  sx : Nat
  sy : Nat
  sw : Nat
  sh : Nat
deriving DecidableEq

/-- The video element as `predictWordFromImage` reads it: `video.videoWidth`,
`video.videoHeight` and the picture that `ctx.drawImage(video, ...)` copies (an identifier
standing for its pixels). -/
structure Frame where
  videoWidth : Nat
  videoHeight : Nat
  image : Nat
deriving DecidableEq

/-- How `navigator.mediaDevices.getUserMedia` settles: with a stream (identified by a
number), or with an error classified by the `err.name` tests of the `catch` block. -/
inductive MediaResult where
  | granted (s : Nat)
  | notAllowed
  | notFound
  | otherError
deriving DecidableEq

/-- The globals of the script (`stream`, `streamStarted`), the DOM properties it touches, and
logs of its effect-only platform calls.  `liveStreams` is the platform side of the camera:
the acquired streams whose tracks have not been stopped. -/
structure State where
  stream : Option Nat
  streamStarted : Bool
  liveStreams : List Nat
  videoSrcObject : Option Nat
  videoDisplay : String
  canvasDisplay : String
  capturedImageDisplay : String
  canvasWidth : Nat
  canvasHeight : Nat
  canvasImage : Option Nat
  capturedImageSrc : Option Nat
  startDisabled : Bool
  captureDisabled : Bool
  resetDisabled : Bool
  output : String
  instructions : String
  spoken : List String
  alerts : List String
  sliceRequests : List Rect
deriving DecidableEq

/-- The function `speak(text)`: one utterance queued on `speechSynthesis`. -/
def speak (st : State) (text : String) : State :=
  { st with spoken := st.spoken ++ [text] }

/-- The platform call `alert(text)`. -/
def alert (st : State) (text : String) : State :=
  { st with alerts := st.alerts ++ [text] }

/-! ## Camera session -/

/-- The statement `stream.getTracks().forEach(track => track.stop())` guarded by
`if (stream)`: the stream held in the variable `stream`, if any, has no live track
afterwards. -/
def stopTracks (st : State) : State :=
  match st.stream with
  | some s => { st with liveStreams := st.liveStreams.filter (fun x => x ≠ s) }
  | none => st

/-- The part of `startCamera` up to the point where `getUserMedia` is called (lines 33 to 38). -/
def startCameraRequest (st : State) : State :=
  let st := { st with instructions := "Solicitando acceso a la cámara..." }
  let st := speak st "Solicitando acceso a la cámara..."
  stopTracks st

/-- The part of `startCamera` from the settlement of `getUserMedia` on (lines 40 to 82):
the rest of the `try` block when a stream is granted, the `catch` block otherwise. -/
def startCameraSettle (st : State) (r : MediaResult) : State :=
  match r with
  | .granted s =>
    let st := { st with stream := some s, liveStreams := st.liveStreams ++ [s] }
    let st := { st with videoSrcObject := st.stream }
    let st := { st with videoDisplay := "block" }
    let st := { st with canvasDisplay := "none" }
    let st := { st with capturedImageDisplay := "none" }
    let st := { st with streamStarted := true }
    let st := { st with
      instructions := "Cámara activada. Coloca el pop-it y presiona Capturar palabra." }
    let st := speak st "Cámara activada. Coloca el pop-it y presiona Capturar palabra."
    let st := { st with captureDisabled := false }
    { st with resetDisabled := true }
  | .notAllowed =>
    let st := alert st "❌ Acceso a la cámara denegado. Revisa los permisos."
    let st := { st with instructions := "Acceso a la cámara denegado." }
    speak st "Acceso a la cámara denegado. Permite el acceso arriba."
  | .notFound =>
    let st := alert st "❌ No se encontró cámara disponible."
    let st := { st with instructions := "No se encontró cámara." }
    speak st "No se encontró cámara."
  | .otherError =>
    let st := alert st "❌ No se pudo activar la cámara. Revisa la consola."
    let st := { st with instructions := "Error desconocido al activar la cámara." }
    speak st "Error al activar la cámara."

/-- The function `startCamera()`, with `r` the way its `getUserMedia` call settles. -/
def startCamera (st : State) (r : MediaResult) : State :=
  startCameraSettle (startCameraRequest st) r

/-- The function `stopCamera()`. -/
def stopCamera (st : State) : State :=
  let st := stopTracks st
  { st with streamStarted := false }

/-! ## Capture, segmentation and assembly -/

/-- The variables the `for` loop of `predictWordFromImage` builds up: the array `word` and
the rectangles requested with `ctx.getImageData`, in call order. -/
structure LoopState where
  word : List String
  requested : List Rect
deriving DecidableEq

/-- One iteration of the loop (lines 126 to 141) for loop index `i`: the rectangle requested
from the canvas and the string pushed onto `word`; `preds i` is what `model.predict` yields
for the tensor built from slice `i`. -/
def loopBody (segmentWidth canvasHeight : Nat) (preds : Nat → Prediction)
    (ls : LoopState) (i : Nat) : LoopState :=
  let imageData : Rect := ⟨i * segmentWidth, 0, segmentWidth, canvasHeight⟩
  { word := ls.word ++ [sliceDecision (preds i)], requested := ls.requested ++ [imageData] }

/-- The loop `for (let i = 0; i < numLetters; i++)` started from `word = []`. -/
def sliceLoop (segmentWidth canvasHeight : Nat) (preds : Nat → Prediction)
    (numLetters : Nat) : LoopState :=
  (List.range numLetters).foldl (loopBody segmentWidth canvasHeight preds) ⟨[], []⟩

/-- Lines 144 to 155 of `predictWordFromImage`: join the word, show and speak the result,
switch the buttons. -/
def reportWord (st : State) (word : List String) : State :=
  let finalWord := String.join word
  let st :=
    if word.all (fun letter => letter = "?") then
      let st := { st with output := "No se detectó un pop-it válido." }
      speak st "No se detectó un pop-it válido. Intenta de nuevo."
    else
      let st := { st with output := "Palabra detectada: " ++ finalWord }
      speak st ("La palabra es " ++ finalWord)
  let st := { st with resetDisabled := false }
  { st with captureDisabled := true }

/-- Lines 111 to 120 of `predictWordFromImage`: size the canvas to the video, draw the frame,
stop the camera, hide the video and show the still image. -/
def freezeFrame (st : State) (frame : Frame) : State :=
  let st := { st with canvasWidth := frame.videoWidth }
  let st := { st with canvasHeight := frame.videoHeight }
  let st := { st with canvasImage := some frame.image }
  let st := stopCamera st
  let st := { st with videoDisplay := "none" }
  let st := { st with capturedImageSrc := st.canvasImage }
  { st with capturedImageDisplay := "block" }

/-- The function `predictWordFromImage(numLetters)` along the path on which every host call
returns: `frame` is the video frame at the time of the call and `preds i` the outcome of
`model.predict` on slice `i`.  `Math.floor(canvas.width /
numLetters)` is natural-number division: for a positive integer divisor and a dividend below
`2 ^ 53` the rounded quotient has the same floor as the exact one. -/
def predictWordFromImage (st : State) (numLetters : Nat) (frame : Frame)
    (preds : Nat → Prediction) : State :=
  if !st.streamStarted then
    speak st "Primero debes activar la cámara."
  else
    let st := freezeFrame st frame
    let segmentWidth := st.canvasWidth / numLetters
    let ls := sliceLoop segmentWidth st.canvasHeight preds numLetters
    let st := { st with sliceRequests := st.sliceRequests ++ ls.requested }
    reportWord st ls.word

/-! ## The capture on the host -/

/-- An exception thrown out of `predictWordFromImage` by a host call inside the loop:
`IndexSizeError` from `ctx.getImageData` when the requested width or height is 0, and
`TypeError` from `model.predict` when `model` is still undefined (the model did not load). -/
inductive HostError where
  | indexSizeError
  | typeError
deriving DecidableEq

/-- A JavaScript number as `parseInt` returns it: `NaN`, a double whose value is an
integer, or an infinity. -/
inductive JSNumber where
  | nan
  | finite (v : Int)
  | posInf
  | negInf
deriving DecidableEq

/-- The loop variables of `predictWordFromImage` on the host: the array `word`, the
rectangles passed to `ctx.getImageData`, those for which the call returned image data, and
the exception that ended the loop, if any. -/
structure LoopRun where
  word : List String
  requested : List Rect
  extracted : List Rect
  thrown : Option HostError
deriving DecidableEq

/-- The loop of `predictWordFromImage` on the host, with `remaining` iterations to go from
loop index `i`.  An iteration requests the rectangle, which throws when its width or height
is 0; it then calls `model.predict`, which throws when `model` is undefined (`none`); it then
pushes the decision onto `word`.  An exception ends the loop. -/
def hostLoop (segmentWidth canvasHeight : Nat) (model : Option (Nat → Prediction)) :
    (remaining : Nat) → (i : Nat) → LoopRun → LoopRun
  | 0, _, run => run
  | remaining + 1, i, run =>
    let imageData : Rect := ⟨i * segmentWidth, 0, segmentWidth, canvasHeight⟩
    let run := { run with requested := run.requested ++ [imageData] }
    if segmentWidth = 0 ∨ canvasHeight = 0 then
      { run with thrown := some .indexSizeError }
    else
      let run := { run with extracted := run.extracted ++ [imageData] }
      match model with
      | none => { run with thrown := some .typeError }
      | some preds =>
        hostLoop segmentWidth canvasHeight model remaining (i + 1)
          { run with word := run.word ++ [sliceDecision (preds i)] }

/-- The value of `Math.floor(canvas.width / numLetters)` when `numLetters` is 1 or more: the
natural-number quotient for a finite count, 0 for `Infinity`.  For other values the loop
does not run and the width is not used. -/
def segmentWidthOf (canvasWidth : Nat) (numLetters : JSNumber) : Nat :=
  match numLetters with
  | .finite v => canvasWidth / v.toNat
  | _ => 0

/-- How many times the loop test `i < numLetters` can pass before the loop ends.  For
`Infinity` the segment width is 0, so the first iteration throws and is the only one. -/
def loopBound (numLetters : JSNumber) : Nat :=
  match numLetters with
  | .finite v => v.toNat
  | .posInf => 1
  | _ => 0

/-- How a call of `predictWordFromImage` ends on the host: the page state at that point, the
slices obtained from the canvas, and the exception thrown out of the call, if any. -/
structure CaptureRun where
  state : State
  extracted : List Rect
  thrown : Option HostError
deriving DecidableEq

/-- The function `predictWordFromImage(numLetters)` on the host.  `numLetters` is any number
that `parseInt` can produce and `model` is the global `model`, `none` while undefined.  When
a host call throws inside the loop, lines 144 to 155 do not run. -/
def predictWordFromImageOnHost (st : State) (numLetters : JSNumber) (frame : Frame)
    (model : Option (Nat → Prediction)) : CaptureRun :=
  if !st.streamStarted then
    { state := speak st "Primero debes activar la cámara.", extracted := [], thrown := none }
  else
    let st := freezeFrame st frame
    let segmentWidth := segmentWidthOf st.canvasWidth numLetters
    let run := hostLoop segmentWidth st.canvasHeight model (loopBound numLetters) 0
      ⟨[], [], [], none⟩
    let st := { st with sliceRequests := st.sliceRequests ++ run.requested }
    match run.thrown with
    | some e => { state := st, extracted := run.extracted, thrown := some e }
    | none => { state := reportWord st run.word, extracted := run.extracted, thrown := none }

/-! ## Button handlers -/

/-- ECMAScript `StrWhiteSpaceChar`: the white space and line terminator code points that
`parseInt` skips at the start of its input. -/
def isStrWhiteSpaceChar (c : Char) : Bool :=
  c.toNat ∈ [0x09, 0x0A, 0x0B, 0x0C, 0x0D, 0x20, 0xA0, 0x1680, 0x2028, 0x2029, 0x202F,
    0x205F, 0x3000, 0xFEFF] || (0x2000 ≤ c.toNat && c.toNat ≤ 0x200A)

/-- Number of binary digits of `n`, by halving at most `fuel` times. -/
def bitLengthAux : Nat → Nat → Nat
  | 0, _ => 0
  | fuel + 1, n => if n = 0 then 0 else bitLengthAux fuel (n / 2) + 1

/-- Number of binary digits of `n`. -/
def bitLength (n : Nat) : Nat := bitLengthAux n n

/-- The leading binary digits of `n` above bit `e`, rounded to nearest on the `e` digits
dropped, ties to even. -/
def roundedSignificand (n e : Nat) : Nat :=
  let q := n / 2 ^ e
  let r := n % 2 ^ e
  let half := 2 ^ (e - 1)
  if half < r ∨ (r = half ∧ q % 2 = 1) then q + 1 else q

/-- The double nearest to the natural number `n`, ties to even (ECMAScript's conversion of a
mathematical value to a Number); `none` when the result is `Infinity`.  Below `2 ^ 53` every
integer is a double.  Above, the 53 leading binary digits are kept and the rest rounded. -/
def roundToDouble (n : Nat) : Option Nat :=
  if n < 2 ^ 53 then some n
  else
    let e := bitLength n - 53
    if 2 ^ 1024 ≤ roundedSignificand n e * 2 ^ e then none
    else some (roundedSignificand n e * 2 ^ e)

/-- The Number for a sign and a magnitude. -/
def toNumber (negative : Bool) (mathInt : Nat) : JSNumber :=
  match roundToDouble mathInt with
  | some v => .finite (if negative then -(v : Int) else (v : Int))
  | none => if negative then .negInf else .posInf

/-- ECMAScript `parseInt(input, 10)`: skip leading white space; a leading `-` makes the
result negative, and a leading `+` or `-` is removed; then take the longest run of decimal
digits; `NaN` when that run is empty, otherwise the Number for the signed value of the
run.  What follows the digits is ignored. -/
def parseInt (input : String) : JSNumber :=
  let s := input.toList.dropWhile isStrWhiteSpaceChar
  let negative : Bool := s.head? = some '-'
  let s := if s.head? = some '-' ∨ s.head? = some '+' then s.tail else s
  let z := s.takeWhile Char.isDigit
  if z.isEmpty then .nan
  else toNumber negative (z.foldl (fun acc c => 10 * acc + (c.toNat - 48)) 0)

/-- What the `captureBtn` click handler does with the text of the letter-count input. -/
inductive CaptureDecision where
  | refuse
  | invoke (numLetters : JSNumber)
deriving DecidableEq

/-- Lines 166 to 171: `parseInt`, the test `isNaN(numLetters) || numLetters < 1`, and the
argument passed to `predictWordFromImage` when the test fails. -/
def captureDecision (text : String) : CaptureDecision :=
  match parseInt text with
  | .nan => .refuse
  | .negInf => .refuse
  | .finite v => if v < 1 then .refuse else .invoke (.finite v)
  | .posInf => .invoke .posInf

/-- The `captureBtn` click handler on the host; `text` is `letterCountInput.value`. -/
def captureBtnClick (st : State) (text : String) (frame : Frame)
    (model : Option (Nat → Prediction)) : CaptureRun :=
  match captureDecision text with
  | .refuse =>
    { state := speak st "Por favor, indica un número válido de letras.", extracted := [],
      thrown := none }
  | .invoke numLetters => predictWordFromImageOnHost st numLetters frame model

/-- The `startBtn` click handler. -/
def startBtnClick (st : State) (r : MediaResult) : State :=
  let st := startCamera st r
  { st with startDisabled := true }

/-- The `resetBtn` click handler. -/
def resetBtnClick (st : State) (r : MediaResult) : State :=
  let st := { st with capturedImageDisplay := "none" }
  let st := { st with output := "Esperando..." }
  let st := { st with instructions := "Reiniciando cámara..." }
  let st := speak st "Puedes capturar otra palabra."
  let st := startCamera st r
  let st := { st with captureDisabled := false }
  let st := { st with resetDisabled := true }
  { st with startDisabled := true }

/-- The `resetBtn` click handler up to the point where it suspends, inside
`await startCamera()`, at the call of `getUserMedia` (lines 175 to 178, then lines 33 to
38). -/
def resetBtnClickRequest (st : State) : State :=
  let st := { st with capturedImageDisplay := "none" }
  let st := { st with output := "Esperando..." }
  let st := { st with instructions := "Reiniciando cámara..." }
  let st := speak st "Puedes capturar otra palabra."
  startCameraRequest st

/-- The `resetBtn` click handler from the settlement of `getUserMedia` on: the rest of
`startCamera`, then lines 181 to 183.  `st` is the page state at that moment. -/
def resetBtnClickSettle (st : State) (r : MediaResult) : State :=
  let st := startCameraSettle st r
  let st := { st with captureDisabled := false }
  let st := { st with resetDisabled := true }
  { st with startDisabled := true }

/-- A page before any action: no stream, the start button enabled, the other two disabled.
The texts and display values stand for whatever the page shows at load. -/
def blankPage : State :=
  { stream := none, streamStarted := false, liveStreams := [], videoSrcObject := none,
    videoDisplay := "", canvasDisplay := "", capturedImageDisplay := "",
    canvasWidth := 300, canvasHeight := 150, canvasImage := none, capturedImageSrc := none,
    startDisabled := false, captureDisabled := true, resetDisabled := true,
    output := "", instructions := "", spoken := [], alerts := [], sliceRequests := [] }

/-! ## Sample inputs -/

/-- Five predictions: indices 0, 15, 18, 22 at confidence 0.6 or more, then one at 0.59. -/
def amorPreds : Nat → Prediction := fun i =>
  match i with
  | 0 => ⟨0, 0.9⟩
  | 1 => ⟨15, 0.6⟩
  | 2 => ⟨18, 1⟩
  | 3 => ⟨22, 0.75⟩
  | _ => ⟨3, 0.59⟩

/-- A 640 by 480 video frame. -/
def sampleFrame : Frame := ⟨640, 480, 7⟩

/-- The page after `startCamera` has been granted stream 1 on `blankPage`. -/
def readyPage : State := startCamera blankPage (.granted 1)

/-- The page after the start button was clicked on `blankPage`, stream 1 was granted, and one
capture of one letter was made: the camera is stopped and the reset button is enabled. -/
def frozenPage : State :=
  predictWordFromImage (startBtnClick blankPage (.granted 1)) 1 sampleFrame amorPreds

/-- The value of a run of decimal digits in positional notation, most significant digit
first. -/
def decimalValue : List Char → Nat
  | [] => 0
  | d :: ds => (d.toNat - 48) * 10 ^ ds.length + decimalValue ds

/-- The reading of "the text denotes an integer" used to test the letter-count claim: an
optional sign followed by one or more decimal digits and nothing else. -/
def specDenotesInteger (text : String) : Bool :=
  match text.toList with
  | '-' :: ds => !ds.isEmpty && ds.all Char.isDigit
  | '+' :: ds => !ds.isEmpty && ds.all Char.isDigit
  | ds => !ds.isEmpty && ds.all Char.isDigit

/-- At most one stream is live, and a live stream is the one held in `stream`. -/
def CameraInv (st : State) : Prop :=
  st.liveStreams = [] ∨ ∃ s, st.stream = some s ∧ st.liveStreams = [s]

/-! ## Lemmas on the loop -/

theorem foldl_loopBody_word (sw h : Nat) (preds : Nat → Prediction) (l : List Nat)
    (ls : LoopState) :
    (l.foldl (loopBody sw h preds) ls).word
      = ls.word ++ l.map (fun i => sliceDecision (preds i)) := by
  induction l generalizing ls with
  | nil => simp
  | cons a t ih => simp [List.foldl_cons, ih, loopBody]

theorem foldl_loopBody_requested (sw h : Nat) (preds : Nat → Prediction) (l : List Nat)
    (ls : LoopState) :
    (l.foldl (loopBody sw h preds) ls).requested
      = ls.requested ++ l.map (fun i => (⟨i * sw, 0, sw, h⟩ : Rect)) := by
  induction l generalizing ls with
  | nil => simp
  | cons a t ih => simp [List.foldl_cons, ih, loopBody]

theorem sliceLoop_word (sw h : Nat) (preds : Nat → Prediction) (n : Nat) :
    (sliceLoop sw h preds n).word = (List.range n).map (fun i => sliceDecision (preds i)) := by
  simp [sliceLoop, foldl_loopBody_word]

theorem sliceLoop_requested (sw h : Nat) (preds : Nat → Prediction) (n : Nat) :
    (sliceLoop sw h preds n).requested
      = (List.range n).map (fun i => (⟨i * sw, 0, sw, h⟩ : Rect)) := by
  simp [sliceLoop, foldl_loopBody_requested]

theorem freezeFrame_canvasWidth (st : State) (frame : Frame) :
    (freezeFrame st frame).canvasWidth = frame.videoWidth := by
  unfold freezeFrame stopCamera stopTracks
  cases st.stream <;> rfl

theorem freezeFrame_canvasHeight (st : State) (frame : Frame) :
    (freezeFrame st frame).canvasHeight = frame.videoHeight := by
  unfold freezeFrame stopCamera stopTracks
  cases st.stream <;> rfl

theorem freezeFrame_sliceRequests (st : State) (frame : Frame) :
    (freezeFrame st frame).sliceRequests = st.sliceRequests := by
  unfold freezeFrame stopCamera stopTracks
  cases st.stream <;> rfl

theorem reportWord_sliceRequests (st : State) (word : List String) :
    (reportWord st word).sliceRequests = st.sliceRequests := by
  unfold reportWord speak
  split <;> rfl

theorem reportWord_output (st : State) (word : List String) :
    (reportWord st word).output
      = if word.all (fun letter => letter = "?") then "No se detectó un pop-it válido."
        else "Palabra detectada: " ++ String.join word := by
  unfold reportWord speak
  split <;> rfl

/-- With the camera ready, `predictWordFromImage` is the frozen frame, the slice loop and the
report, in that order. -/
theorem predictWordFromImage_ready (st : State) (n : Nat) (frame : Frame)
    (preds : Nat → Prediction) (hready : st.streamStarted = true) :
    predictWordFromImage st n frame preds
      = reportWord
          { freezeFrame st frame with
            sliceRequests := st.sliceRequests
              ++ (sliceLoop (frame.videoWidth / n) frame.videoHeight preds n).requested }
          (sliceLoop (frame.videoWidth / n) frame.videoHeight preds n).word := by
  unfold predictWordFromImage
  simp [hready, freezeFrame_canvasWidth, freezeFrame_canvasHeight, freezeFrame_sliceRequests]

theorem predictWordFromImage_sliceRequests (st : State) (n : Nat) (frame : Frame)
    (preds : Nat → Prediction) (hready : st.streamStarted = true) :
    (predictWordFromImage st n frame preds).sliceRequests
      = st.sliceRequests
        ++ (List.range n).map
            (fun i => (⟨i * (frame.videoWidth / n), 0, frame.videoWidth / n,
              frame.videoHeight⟩ : Rect)) := by
  rw [predictWordFromImage_ready st n frame preds hready, reportWord_sliceRequests,
    sliceLoop_requested]

theorem predictWordFromImage_output (st : State) (n : Nat) (frame : Frame)
    (preds : Nat → Prediction) (hready : st.streamStarted = true) :
    (predictWordFromImage st n frame preds).output
      = if ((List.range n).map (fun i => sliceDecision (preds i))).all
            (fun letter => letter = "?")
        then "No se detectó un pop-it válido."
        else "Palabra detectada: "
          ++ String.join ((List.range n).map (fun i => sliceDecision (preds i))) := by
  rw [predictWordFromImage_ready st n frame preds hready, reportWord_output, sliceLoop_word]

/-! ## Alphabet mapping -/

theorem getLetterFromIndex_of_ge (index : Int) (h : 32 ≤ index) :
    getLetterFromIndex index = "?" := by
  have h0 : 0 ≤ index := by omega
  have hlen : letras.toList.length ≤ index.toNat := by
    have : letras.toList.length = 32 := by decide
    omega
  have hnone : letras.toList[index.toNat]? = none := List.getElem?_eq_none hlen
  unfold getLetterFromIndex strAt
  rw [if_pos h0, hnone]
  rfl

theorem getLetterFromIndex_of_neg (index : Int) (h : index < 0) :
    getLetterFromIndex index = "?" := by
  have h0 : ¬ (0 ≤ index) := by omega
  simp [getLetterFromIndex, strAt, h0, orDefault]

theorem getLetterFromIndex_nat_in_range (k : Nat) (h : k < 32) :
    strAt letras (k : Int) = some (getLetterFromIndex (k : Int))
      ∧ getLetterFromIndex (k : Int) ≠ "?" := by
  interval_cases k <;> decide

/-- Claim C1, refuted as stated: the table has 32 entries, not 33, and index 32, which the
claim places inside the table, yields the unknown marker. -/
theorem getLetterFromIndex_32_unknown :
    letras.length ≠ 33 ∧
    ¬ (∀ index : Int, 0 ≤ index → index ≤ 32 → getLetterFromIndex index ≠ "?") := by
  refine ⟨by decide, ?_⟩
  intro h
  exact h 32 (by decide) (by decide) (by decide)

/-- Claim C1, amended: `getLetterFromIndex` is a total mapping over a fixed table of 32
symbols, the 26 Latin letters plus Á É Í Ó Ú and Ñ, without repetition; for an integer index
in [0,31] it returns the table symbol at that index, which is never the unknown marker, and
for every integer index outside [0,31] it returns the unknown marker. -/
theorem getLetterFromIndex_table (index : Int) :
    letras.length = 32 ∧
    letras.toList.Nodup ∧
    (∀ c, c ∈ letras.toList ↔ c ∈ "ABCDEFGHIJKLMNOPQRSTUVWXYZÁÉÍÓÚÑ".toList) ∧
    (0 ≤ index ∧ index ≤ 31 →
      strAt letras index = some (getLetterFromIndex index)
        ∧ getLetterFromIndex index ≠ "?") ∧
    (index < 0 ∨ 31 < index → getLetterFromIndex index = "?") := by
  refine ⟨by decide, by decide, ?_, ?_, ?_⟩
  · intro c
    constructor
    · intro hc
      have hall : ∀ x ∈ letras.toList, x ∈ "ABCDEFGHIJKLMNOPQRSTUVWXYZÁÉÍÓÚÑ".toList := by
        decide
      exact hall c hc
    · intro hc
      have hall : ∀ x ∈ "ABCDEFGHIJKLMNOPQRSTUVWXYZÁÉÍÓÚÑ".toList, x ∈ letras.toList := by
        decide
      exact hall c hc
  · rintro ⟨h0, h1⟩
    obtain ⟨k, rfl⟩ := Int.eq_ofNat_of_zero_le h0
    exact getLetterFromIndex_nat_in_range k (by omega)
  · rintro (h | h)
    · exact getLetterFromIndex_of_neg index h
    · exact getLetterFromIndex_of_ge index (by omega)

theorem getLetterFromIndex_table_witness :
    (strAt letras 15 = some (getLetterFromIndex 15) ∧ getLetterFromIndex 15 ≠ "?")
      ∧ getLetterFromIndex 40 = "?" :=
  ⟨(getLetterFromIndex_table 15).2.2.2.1 ⟨by decide, by decide⟩,
   (getLetterFromIndex_table 40).2.2.2.2 (Or.inr (by decide))⟩

/-! ## Confidence threshold -/

/-- Claim C2: for a slice whose best class index is `k` and best probability is `c`, the
decision of the loop body is `getLetterFromIndex k` when `c >= 0.6` and the unknown marker
when `c < 0.6`; the boundary `c = 0.6` is accepted; and for an index inside the table the
marker is emitted exactly when `c < 0.6`. -/
theorem sliceDecision_threshold (k : Nat) (c : ℚ) :
    (0.6 ≤ c → sliceDecision ⟨k, c⟩ = getLetterFromIndex k) ∧
    (c < 0.6 → sliceDecision ⟨k, c⟩ = "?") ∧
    sliceDecision ⟨k, 0.6⟩ = getLetterFromIndex k ∧
    (k ≤ 31 → (sliceDecision ⟨k, c⟩ ≠ "?" ↔ 0.6 ≤ c)) := by
  refine ⟨?_, ?_, ?_, ?_⟩
  · intro h
    simp [sliceDecision, not_lt.mpr h]
  · intro h
    simp [sliceDecision, h]
  · simp [sliceDecision]
  · intro hk
    have hne : getLetterFromIndex (k : Int) ≠ "?" :=
      (getLetterFromIndex_nat_in_range k (by omega)).2
    by_cases h : c < 0.6
    · simp [sliceDecision, h]
    · simp only [sliceDecision, h, if_false]
      exact ⟨fun _ => not_lt.mp h, fun _ => hne⟩

theorem sliceDecision_threshold_witness :
    sliceDecision ⟨15, 0.6⟩ = getLetterFromIndex 15 ∧ sliceDecision ⟨15, 0.59⟩ = "?"
      ∧ (sliceDecision ⟨15, 0.7⟩ ≠ "?" ↔ (0.6 : ℚ) ≤ 0.7) :=
  ⟨(sliceDecision_threshold 15 0.6).1 (le_refl _),
   (sliceDecision_threshold 15 0.59).2.1 (by norm_num),
   (sliceDecision_threshold 15 0.7).2.2.2 (by decide)⟩

/-! ## Segmentation -/

theorem reportWord_canvasWidth (st : State) (word : List String) :
    (reportWord st word).canvasWidth = st.canvasWidth := by
  unfold reportWord speak
  split <;> rfl

theorem hostLoop_returns (sw h : Nat) (preds : Nat → Prediction) (hsw : 0 < sw)
    (hh : 0 < h) (k i : Nat) (run : LoopRun) :
    hostLoop sw h (some preds) k i run
      = { word := run.word ++ (List.range' i k).map (fun j => sliceDecision (preds j)),
          requested := run.requested
            ++ (List.range' i k).map (fun j => (⟨j * sw, 0, sw, h⟩ : Rect)),
          extracted := run.extracted
            ++ (List.range' i k).map (fun j => (⟨j * sw, 0, sw, h⟩ : Rect)),
          thrown := run.thrown } := by
  induction k generalizing i run with
  | zero => simp [hostLoop]
  | succ k ih =>
    have hne : ¬ (sw = 0 ∨ h = 0) := by omega
    simp [hostLoop, hne, ih, List.range'_succ]

theorem hostLoop_zero_size (sw h : Nat) (model : Option (Nat → Prediction))
    (hz : sw = 0 ∨ h = 0) (k i : Nat) (run : LoopRun) :
    hostLoop sw h model (k + 1) i run
      = { run with requested := run.requested ++ [⟨i * sw, 0, sw, h⟩],
                   thrown := some .indexSizeError } := by
  simp [hostLoop, hz]

theorem hostLoop_no_model (sw h : Nat) (hsw : 0 < sw) (hh : 0 < h) (k i : Nat)
    (run : LoopRun) :
    hostLoop sw h none (k + 1) i run
      = { run with requested := run.requested ++ [⟨i * sw, 0, sw, h⟩],
                   extracted := run.extracted ++ [⟨i * sw, 0, sw, h⟩],
                   thrown := some .typeError } := by
  have hne : ¬ (sw = 0 ∨ h = 0) := by omega
  simp [hostLoop, hne]

/-- When the letter count is between 1 and the frame width, the frame is at least one pixel
high and the model is loaded, no host call throws and the capture on the host is the
capture of `predictWordFromImage`. -/
theorem predictWordFromImageOnHost_returns (st : State) (N : Nat) (frame : Frame)
    (preds : Nat → Prediction) (hN : 0 < N) (hW : N ≤ frame.videoWidth)
    (hH : 0 < frame.videoHeight) (hready : st.streamStarted = true) :
    predictWordFromImageOnHost st (.finite N) frame (some preds)
      = { state := predictWordFromImage st N frame preds,
          extracted := (List.range N).map
            (fun i => (⟨i * (frame.videoWidth / N), 0, frame.videoWidth / N,
              frame.videoHeight⟩ : Rect)),
          thrown := none } := by
  have hsw : 0 < frame.videoWidth / N := Nat.div_pos hW hN
  rw [predictWordFromImage_ready st N frame preds hready, sliceLoop_requested, sliceLoop_word]
  unfold predictWordFromImageOnHost
  simp only [hready, Bool.not_true, Bool.false_eq_true, if_false, segmentWidthOf, loopBound,
    Int.toNat_ofNat, freezeFrame_canvasWidth, freezeFrame_canvasHeight,
    freezeFrame_sliceRequests, hostLoop_returns _ _ preds hsw hH, List.nil_append,
    List.range_eq_range']

theorem predictWordFromImageOnHost_zero_width (st : State) (N : Nat) (frame : Frame)
    (model : Option (Nat → Prediction)) (hN : 0 < N) (hW : frame.videoWidth < N)
    (hready : st.streamStarted = true) :
    predictWordFromImageOnHost st (.finite N) frame model
      = { state := { freezeFrame st frame with
                     sliceRequests := st.sliceRequests ++ [⟨0, 0, 0, frame.videoHeight⟩] },
          extracted := [],
          thrown := some .indexSizeError } := by
  obtain ⟨k, rfl⟩ : ∃ k, N = k + 1 := ⟨N - 1, by omega⟩
  have hz : frame.videoWidth / (k + 1) = 0 := Nat.div_eq_of_lt hW
  unfold predictWordFromImageOnHost
  simp only [hready, Bool.not_true, Bool.false_eq_true, if_false, segmentWidthOf, loopBound,
    Int.toNat_ofNat, freezeFrame_canvasWidth, freezeFrame_canvasHeight,
    freezeFrame_sliceRequests, hz, hostLoop_zero_size 0 _ model (Or.inl rfl), List.nil_append,
    Nat.mul_zero]

/-- Claim C3, refuted as stated: on a ready page with a 640 pixel wide frame, a letter count
of 641 makes the first `getImageData` request throw, so no slice is extracted; a frame of
height 0 does the same; and with the model not loaded the loop stops after one slice. -/
theorem segmentation_stops_on_host_error :
    readyPage.streamStarted = true ∧
    (predictWordFromImageOnHost readyPage (.finite 641) sampleFrame (some amorPreds)).thrown
      = some .indexSizeError ∧
    (predictWordFromImageOnHost readyPage (.finite 641) sampleFrame (some amorPreds)).extracted
      = [] ∧
    (predictWordFromImageOnHost readyPage (.finite 3) ⟨640, 0, 7⟩ (some amorPreds)).extracted
      = [] ∧
    (predictWordFromImageOnHost readyPage (.finite 3) sampleFrame none).thrown
      = some .typeError ∧
    (predictWordFromImageOnHost readyPage (.finite 3) sampleFrame none).extracted
      = [⟨0, 0, 213, 480⟩] := by
  decide

/-- Claim C3, amended: for every positive letter count `N` not above the frame width `W`,
every frame height of at least 1, and a loaded model, the loop of `predictWordFromImage` on a
ready page throws nothing and extracts exactly `N` slices from a canvas as wide as the frame;
slice `i` is the rectangle with left edge `i * (W / N)`, top 0, width `W / N` and the frame
height; every slice is at least one pixel wide and ends at or before `W`; and no pixel column
from `N * (W / N)` up to `W` belongs to a slice. -/
theorem segmentation_slices (st : State) (N : Nat) (frame : Frame)
    (preds : Nat → Prediction) (hN : 0 < N) (hW : N ≤ frame.videoWidth)
    (hH : 1 ≤ frame.videoHeight) (hready : st.streamStarted = true) :
    (predictWordFromImageOnHost st (.finite N) frame (some preds)).thrown = none ∧
    (predictWordFromImageOnHost st (.finite N) frame (some preds)).state.canvasWidth
      = frame.videoWidth ∧
    (predictWordFromImageOnHost st (.finite N) frame (some preds)).state.sliceRequests
      = st.sliceRequests
        ++ (predictWordFromImageOnHost st (.finite N) frame (some preds)).extracted ∧
    (predictWordFromImageOnHost st (.finite N) frame (some preds)).extracted.length = N ∧
    (∀ i, i < N →
      (predictWordFromImageOnHost st (.finite N) frame (some preds)).extracted[i]?
        = some ⟨i * (frame.videoWidth / N), 0, frame.videoWidth / N, frame.videoHeight⟩) ∧
    (∀ r ∈ (predictWordFromImageOnHost st (.finite N) frame (some preds)).extracted,
      1 ≤ r.sw ∧ r.sx + r.sw ≤ frame.videoWidth) ∧
    (∀ x, N * (frame.videoWidth / N) ≤ x → x < frame.videoWidth →
      ∀ r ∈ (predictWordFromImageOnHost st (.finite N) frame (some preds)).extracted,
        ¬ (r.sx ≤ x ∧ x < r.sx + r.sw)) := by
  have hsw : 0 < frame.videoWidth / N := Nat.div_pos hW hN
  have hmem : ∀ r ∈ (List.range N).map
      (fun i => (⟨i * (frame.videoWidth / N), 0, frame.videoWidth / N,
        frame.videoHeight⟩ : Rect)),
      1 ≤ r.sw ∧ r.sx + r.sw ≤ N * (frame.videoWidth / N) := by
    intro r hr
    obtain ⟨i, hi, rfl⟩ := List.mem_map.mp hr
    have hi2 : i < N := List.mem_range.mp hi
    have h1 : (i + 1) * (frame.videoWidth / N) ≤ N * (frame.videoWidth / N) :=
      Nat.mul_le_mul_right _ (by omega)
    have h3 : (i + 1) * (frame.videoWidth / N)
        = i * (frame.videoWidth / N) + frame.videoWidth / N := by ring
    refine ⟨hsw, ?_⟩
    show i * (frame.videoWidth / N) + frame.videoWidth / N ≤ N * (frame.videoWidth / N)
    omega
  rw [predictWordFromImageOnHost_returns st N frame preds hN hW hH hready]
  refine ⟨rfl, ?_, ?_, ?_, ?_, ?_, ?_⟩
  · show (predictWordFromImage st N frame preds).canvasWidth = frame.videoWidth
    rw [predictWordFromImage_ready st N frame preds hready, reportWord_canvasWidth]
    exact freezeFrame_canvasWidth st frame
  · exact predictWordFromImage_sliceRequests st N frame preds hready
  · simp
  · intro i hi
    simp [List.getElem?_map, List.getElem?_range hi]
  · intro r hr
    have h2 : N * (frame.videoWidth / N) ≤ frame.videoWidth := Nat.mul_div_le _ _
    exact ⟨(hmem r hr).1, le_trans (hmem r hr).2 h2⟩
  · intro x hx _ r hr hcon
    have := (hmem r hr).2
    omega

theorem segmentation_slices_witness :
    (predictWordFromImageOnHost readyPage (.finite (3 : Nat)) sampleFrame
        (some amorPreds)).thrown = none ∧
    (predictWordFromImageOnHost readyPage (.finite (3 : Nat)) sampleFrame
        (some amorPreds)).state.canvasWidth = sampleFrame.videoWidth ∧
    (predictWordFromImageOnHost readyPage (.finite (3 : Nat)) sampleFrame
        (some amorPreds)).state.sliceRequests
      = readyPage.sliceRequests
        ++ (predictWordFromImageOnHost readyPage (.finite (3 : Nat)) sampleFrame
              (some amorPreds)).extracted ∧
    (predictWordFromImageOnHost readyPage (.finite (3 : Nat)) sampleFrame
        (some amorPreds)).extracted.length = 3 ∧
    (∀ i, i < 3 →
      (predictWordFromImageOnHost readyPage (.finite (3 : Nat)) sampleFrame
          (some amorPreds)).extracted[i]?
        = some ⟨i * (sampleFrame.videoWidth / 3), 0, sampleFrame.videoWidth / 3,
            sampleFrame.videoHeight⟩) ∧
    (∀ r ∈ (predictWordFromImageOnHost readyPage (.finite (3 : Nat)) sampleFrame
        (some amorPreds)).extracted,
      1 ≤ r.sw ∧ r.sx + r.sw ≤ sampleFrame.videoWidth) ∧
    (∀ x, 3 * (sampleFrame.videoWidth / 3) ≤ x → x < sampleFrame.videoWidth →
      ∀ r ∈ (predictWordFromImageOnHost readyPage (.finite (3 : Nat)) sampleFrame
          (some amorPreds)).extracted,
        ¬ (r.sx ≤ x ∧ x < r.sx + r.sw)) :=
  segmentation_slices readyPage 3 sampleFrame amorPreds (by decide) (by decide) (by decide)
    (by decide)

/-- Claim C10, refuted as stated: with a letter count of 641 on a 640 pixel wide frame the
capture makes one request to the canvas, not 641: the request has width 0, the canvas throws
`IndexSizeError`, and the loop ends there. -/
theorem zero_width_single_request :
    readyPage.streamStarted = true ∧
    (predictWordFromImageOnHost readyPage (.finite 641) sampleFrame
        (some amorPreds)).state.sliceRequests
      = readyPage.sliceRequests ++ [⟨0, 0, 0, 480⟩] ∧
    ((predictWordFromImageOnHost readyPage (.finite 641) sampleFrame
        (some amorPreds)).state.sliceRequests.length
      ≠ readyPage.sliceRequests.length + 641) ∧
    (predictWordFromImageOnHost readyPage (.finite 641) sampleFrame (some amorPreds)).thrown
      = some .indexSizeError := by
  decide

/-- Claim C10, amended: for a positive letter count `N` and a frame of width `W`, the slice
width `W / N` is at least 1 exactly when `N <= W`; when `N > W` the first rectangle
requested from the canvas has left edge 0 and width 0, the canvas throws `IndexSizeError` on
it, no further rectangle is requested and no slice is extracted; the call ends there, with
the camera stopped and the frame frozen but the output text and the buttons as they were. -/
theorem segmentWidth_pos_iff (st : State) (N : Nat) (frame : Frame)
    (model : Option (Nat → Prediction)) (hN : 0 < N) :
    (1 ≤ frame.videoWidth / N ↔ N ≤ frame.videoWidth) ∧
    (frame.videoWidth < N → st.streamStarted = true →
      predictWordFromImageOnHost st (.finite N) frame model
        = { state := { freezeFrame st frame with
                       sliceRequests := st.sliceRequests ++ [⟨0, 0, 0, frame.videoHeight⟩] },
            extracted := [],
            thrown := some .indexSizeError } ∧
      (freezeFrame st frame).streamStarted = false ∧
      (freezeFrame st frame).output = st.output ∧
      (freezeFrame st frame).captureDisabled = st.captureDisabled ∧
      (freezeFrame st frame).resetDisabled = st.resetDisabled) := by
  constructor
  · rw [Nat.le_div_iff_mul_le hN, one_mul]
  · intro hlt hready
    refine ⟨predictWordFromImageOnHost_zero_width st N frame model hN hlt hready, ?_, ?_, ?_, ?_⟩
    all_goals
      unfold freezeFrame stopCamera stopTracks
      cases st.stream <;> rfl

theorem segmentWidth_pos_iff_witness :
    (1 ≤ sampleFrame.videoWidth / 641 ↔ 641 ≤ sampleFrame.videoWidth) ∧
    (predictWordFromImageOnHost readyPage (.finite (641 : Nat)) sampleFrame (some amorPreds)
        = { state := { freezeFrame readyPage sampleFrame with
                       sliceRequests := readyPage.sliceRequests
                         ++ [⟨0, 0, 0, sampleFrame.videoHeight⟩] },
            extracted := [],
            thrown := some .indexSizeError } ∧
      (freezeFrame readyPage sampleFrame).streamStarted = false ∧
      (freezeFrame readyPage sampleFrame).output = readyPage.output ∧
      (freezeFrame readyPage sampleFrame).captureDisabled = readyPage.captureDisabled ∧
      (freezeFrame readyPage sampleFrame).resetDisabled = readyPage.resetDisabled) :=
  ⟨(segmentWidth_pos_iff readyPage 641 sampleFrame (some amorPreds) (by decide)).1,
   (segmentWidth_pos_iff readyPage 641 sampleFrame (some amorPreds) (by decide)).2
     (by decide) (by decide)⟩

/-! ## Refusal when the camera is not ready -/

/-- Claim C7: when `streamStarted` is false, `predictWordFromImage` only speaks its error
message: the resulting state is the given one with that utterance appended, so the canvas,
the stream, the ready flag, the display values, the output text, the buttons and the log of
slice requests are all as before.  The same holds on the host, for every number passed as
`numLetters` and whether or not the model is loaded: nothing is requested from the canvas
and nothing is thrown. -/
theorem predictWordFromImage_not_ready (st : State) (N : Nat) (frame : Frame)
    (preds : Nat → Prediction) (h : st.streamStarted = false) :
    predictWordFromImage st N frame preds
      = { st with spoken := st.spoken ++ ["Primero debes activar la cámara."] } ∧
    (predictWordFromImage st N frame preds).sliceRequests = st.sliceRequests ∧
    (predictWordFromImage st N frame preds).liveStreams = st.liveStreams ∧
    (∀ (numLetters : JSNumber) (model : Option (Nat → Prediction)),
      predictWordFromImageOnHost st numLetters frame model
        = { state := { st with
              spoken := st.spoken ++ ["Primero debes activar la cámara."] },
            extracted := [], thrown := none }) := by
  have heq : predictWordFromImage st N frame preds
      = { st with spoken := st.spoken ++ ["Primero debes activar la cámara."] } := by
    unfold predictWordFromImage
    simp [h, speak]
  refine ⟨heq, by rw [heq], by rw [heq], ?_⟩
  intro numLetters model
  unfold predictWordFromImageOnHost
  simp [h, speak]

theorem predictWordFromImage_not_ready_witness :
    predictWordFromImage blankPage 4 sampleFrame amorPreds
      = { blankPage with spoken := blankPage.spoken ++ ["Primero debes activar la cámara."] } ∧
    (predictWordFromImage blankPage 4 sampleFrame amorPreds).sliceRequests
      = blankPage.sliceRequests ∧
    (predictWordFromImage blankPage 4 sampleFrame amorPreds).liveStreams
      = blankPage.liveStreams ∧
    (∀ (numLetters : JSNumber) (model : Option (Nat → Prediction)),
      predictWordFromImageOnHost blankPage numLetters sampleFrame model
        = { state := { blankPage with
              spoken := blankPage.spoken ++ ["Primero debes activar la cámara."] },
            extracted := [], thrown := none }) :=
  predictWordFromImage_not_ready blankPage 4 sampleFrame amorPreds (by decide)

/-! ## Word assembly and report -/

theorem sliceDecision_of_ge (p : Prediction) (h : 0.6 ≤ p.prob) :
    sliceDecision p = getLetterFromIndex p.index := by
  unfold sliceDecision
  rw [if_neg (not_lt.mpr h)]

theorem sliceDecision_of_lt (p : Prediction) (h : p.prob < 0.6) :
    sliceDecision p = "?" := by
  unfold sliceDecision
  rw [if_pos h]

theorem getLetterFromIndex_symbol (k : Nat) :
    getLetterFromIndex (k : Int) = "?"
      ∨ ∃ ch ∈ letras.toList, getLetterFromIndex (k : Int) = String.singleton ch := by
  by_cases hk : k < 32
  · right
    have h := (getLetterFromIndex_nat_in_range k hk).1
    unfold strAt at h
    rw [if_pos (Int.ofNat_nonneg k), Int.toNat_ofNat] at h
    obtain ⟨ch, hch, hs⟩ := Option.map_eq_some'.mp h
    exact ⟨ch, List.getElem?_mem hch, hs.symm⟩
  · left
    exact getLetterFromIndex_of_ge k (by omega)

theorem sliceDecision_symbol (p : Prediction) :
    sliceDecision p = "?" ∨ ∃ ch ∈ letras.toList, sliceDecision p = String.singleton ch := by
  by_cases h : p.prob < 0.6
  · exact Or.inl (sliceDecision_of_lt p h)
  · rw [sliceDecision_of_ge p (not_lt.mp h)]
    exact getLetterFromIndex_symbol p.index

theorem all_unknown_iff (N : Nat) (preds : Nat → Prediction) :
    ((List.range N).map (fun i => sliceDecision (preds i))).all (fun letter => letter = "?")
        = true
      ↔ ∀ i, i < N → sliceDecision (preds i) = "?" := by
  simp [List.all_eq_true, List.mem_range]

theorem message_ne_detected (w : String) :
    "No se detectó un pop-it válido." ≠ "Palabra detectada: " ++ w := by
  intro h
  have h2 := congrArg (fun t : String => t.data.head?) h
  simp [String.data_append] at h2

/-- Claim C4: after a capture with the camera ready and `N >= 1` slices, the output text is
"No se detectó un pop-it válido." when every per-slice character is the unknown marker (and
then it is not the "Palabra detectada: " line of the all-marker word), and otherwise it is
"Palabra detectada: " followed by the characters joined in slice order; five slices that
resolve to A, M, O, R with confidence at least 0.6 followed by one slice below 0.6 display
"Palabra detectada: AMOR?".  On the host, with `N` at most the frame width, a frame at least
one pixel high and the model loaded, nothing is thrown and the call ends in that state. -/
theorem output_after_capture (st : State) (N : Nat) (frame : Frame)
    (preds : Nat → Prediction) (hN : 1 ≤ N) (hready : st.streamStarted = true) :
    ((∀ i, i < N → sliceDecision (preds i) = "?") →
      (predictWordFromImage st N frame preds).output = "No se detectó un pop-it válido." ∧
      (predictWordFromImage st N frame preds).output ≠ "Palabra detectada: "
        ++ String.join ((List.range N).map (fun i => sliceDecision (preds i)))) ∧
    ((∃ i, i < N ∧ sliceDecision (preds i) ≠ "?") →
      (predictWordFromImage st N frame preds).output = "Palabra detectada: "
        ++ String.join ((List.range N).map (fun i => sliceDecision (preds i)))) ∧
    ((preds 0).index = 0 ∧ (preds 1).index = 15 ∧ (preds 2).index = 18 ∧ (preds 3).index = 22
        ∧ 0.6 ≤ (preds 0).prob ∧ 0.6 ≤ (preds 1).prob ∧ 0.6 ≤ (preds 2).prob
        ∧ 0.6 ≤ (preds 3).prob ∧ (preds 4).prob < 0.6 →
      (predictWordFromImage st 5 frame preds).output = "Palabra detectada: AMOR?") ∧
    (N ≤ frame.videoWidth → 1 ≤ frame.videoHeight →
      (predictWordFromImageOnHost st (.finite N) frame (some preds)).thrown = none ∧
      (predictWordFromImageOnHost st (.finite N) frame (some preds)).state
        = predictWordFromImage st N frame preds) := by
  have _hpos : 1 ≤ N := hN
  refine ⟨?_, ?_, ?_, fun hW hH => by
    rw [predictWordFromImageOnHost_returns st N frame preds hN hW hH hready]
    exact ⟨rfl, rfl⟩⟩
  · intro hall
    have hout : (predictWordFromImage st N frame preds).output
        = "No se detectó un pop-it válido." := by
      rw [predictWordFromImage_output st N frame preds hready,
        if_pos ((all_unknown_iff N preds).mpr hall)]
    exact ⟨hout, by rw [hout]; exact message_ne_detected _⟩
  · rintro ⟨i, hi, hne⟩
    have hnot : ¬ (((List.range N).map (fun i => sliceDecision (preds i))).all
        (fun letter => letter = "?") = true) := by
      intro hall
      exact hne ((all_unknown_iff N preds).mp hall i hi)
    rw [predictWordFromImage_output st N frame preds hready, if_neg hnot]
  · rintro ⟨i0, i1, i2, i3, c0, c1, c2, c3, c4⟩
    have d0 : sliceDecision (preds 0) = "A" := by
      rw [sliceDecision_of_ge _ c0, i0]; decide
    have d1 : sliceDecision (preds 1) = "M" := by
      rw [sliceDecision_of_ge _ c1, i1]; decide
    have d2 : sliceDecision (preds 2) = "O" := by
      rw [sliceDecision_of_ge _ c2, i2]; decide
    have d3 : sliceDecision (preds 3) = "R" := by
      rw [sliceDecision_of_ge _ c3, i3]; decide
    have d4 : sliceDecision (preds 4) = "?" := sliceDecision_of_lt _ c4
    have hword : (List.range 5).map (fun i => sliceDecision (preds i))
        = ["A", "M", "O", "R", "?"] := by
      simp [List.range, List.range.loop, d0, d1, d2, d3, d4]
    rw [predictWordFromImage_output st 5 frame preds hready, hword]
    decide

theorem output_after_capture_witness :
    (predictWordFromImage readyPage 5 sampleFrame amorPreds).output
        = "Palabra detectada: AMOR?" ∧
    ((predictWordFromImage readyPage 2 sampleFrame (fun _ => ⟨3, 0⟩)).output
        = "No se detectó un pop-it válido." ∧
      (predictWordFromImage readyPage 2 sampleFrame (fun _ => ⟨3, 0⟩)).output
        ≠ "Palabra detectada: "
          ++ String.join ((List.range 2).map
              (fun i => sliceDecision ((fun _ => (⟨3, 0⟩ : Prediction)) i)))) ∧
    ((predictWordFromImageOnHost readyPage (.finite (5 : Nat)) sampleFrame
        (some amorPreds)).thrown = none ∧
      (predictWordFromImageOnHost readyPage (.finite (5 : Nat)) sampleFrame
        (some amorPreds)).state = predictWordFromImage readyPage 5 sampleFrame amorPreds) :=
  ⟨(output_after_capture readyPage 5 sampleFrame amorPreds (by decide) (by decide)).2.2.1
      ⟨rfl, rfl, rfl, rfl, by norm_num [amorPreds], by norm_num [amorPreds],
        by norm_num [amorPreds], by norm_num [amorPreds], by norm_num [amorPreds]⟩,
   (output_after_capture readyPage 2 sampleFrame (fun _ => ⟨3, 0⟩) (by decide) (by decide)).1
      (fun _ _ => sliceDecision_of_lt _ (by norm_num)),
   (output_after_capture readyPage 5 sampleFrame amorPreds (by decide) (by decide)).2.2.2
      (by decide) (by decide)⟩

/-- Claim C5: a capture that runs with the camera ready and a positive letter count `N`
hands to the report stage a word of length exactly `N`; its `i`-th entry is the decision
made for slice `i`, and every entry is the unknown marker or a symbol of the table.  On the
host, with `N` at most the frame width, a frame at least one pixel high and the model loaded,
nothing is thrown and the call ends in that state. -/
theorem assembled_word (st : State) (N : Nat) (frame : Frame)
    (preds : Nat → Prediction) (hN : 0 < N) (hready : st.streamStarted = true) :
    predictWordFromImage st N frame preds
      = reportWord
          { freezeFrame st frame with
            sliceRequests := st.sliceRequests
              ++ (sliceLoop (frame.videoWidth / N) frame.videoHeight preds N).requested }
          (sliceLoop (frame.videoWidth / N) frame.videoHeight preds N).word ∧
    (sliceLoop (frame.videoWidth / N) frame.videoHeight preds N).word.length = N ∧
    (∀ i, i < N →
      (sliceLoop (frame.videoWidth / N) frame.videoHeight preds N).word[i]?
        = some (sliceDecision (preds i))) ∧
    (∀ c ∈ (sliceLoop (frame.videoWidth / N) frame.videoHeight preds N).word,
      c = "?" ∨ ∃ ch ∈ letras.toList, c = String.singleton ch) ∧
    (N ≤ frame.videoWidth → 1 ≤ frame.videoHeight →
      (predictWordFromImageOnHost st (.finite N) frame (some preds)).thrown = none ∧
      (predictWordFromImageOnHost st (.finite N) frame (some preds)).state
        = predictWordFromImage st N frame preds) := by
  have _hpos : 0 < N := hN
  refine ⟨predictWordFromImage_ready st N frame preds hready, ?_, ?_, ?_, fun hW hH => by
    rw [predictWordFromImageOnHost_returns st N frame preds hN hW hH hready]
    exact ⟨rfl, rfl⟩⟩
  · simp [sliceLoop_word]
  · intro i hi
    simp [sliceLoop_word, List.getElem?_map, List.getElem?_range hi]
  · intro c hc
    rw [sliceLoop_word] at hc
    obtain ⟨i, _, rfl⟩ := List.mem_map.mp hc
    exact sliceDecision_symbol (preds i)

theorem assembled_word_witness :
    predictWordFromImage readyPage 5 sampleFrame amorPreds
      = reportWord
          { freezeFrame readyPage sampleFrame with
            sliceRequests := readyPage.sliceRequests
              ++ (sliceLoop (sampleFrame.videoWidth / 5) sampleFrame.videoHeight
                    amorPreds 5).requested }
          (sliceLoop (sampleFrame.videoWidth / 5) sampleFrame.videoHeight amorPreds 5).word ∧
    (sliceLoop (sampleFrame.videoWidth / 5) sampleFrame.videoHeight amorPreds 5).word.length
      = 5 ∧
    (∀ i, i < 5 →
      (sliceLoop (sampleFrame.videoWidth / 5) sampleFrame.videoHeight amorPreds 5).word[i]?
        = some (sliceDecision (amorPreds i))) ∧
    (∀ c ∈ (sliceLoop (sampleFrame.videoWidth / 5) sampleFrame.videoHeight amorPreds 5).word,
      c = "?" ∨ ∃ ch ∈ letras.toList, c = String.singleton ch) ∧
    ((predictWordFromImageOnHost readyPage (.finite (5 : Nat)) sampleFrame
        (some amorPreds)).thrown = none ∧
      (predictWordFromImageOnHost readyPage (.finite (5 : Nat)) sampleFrame
        (some amorPreds)).state = predictWordFromImage readyPage 5 sampleFrame amorPreds) :=
  ⟨(assembled_word readyPage 5 sampleFrame amorPreds (by decide) (by decide)).1,
   (assembled_word readyPage 5 sampleFrame amorPreds (by decide) (by decide)).2.1,
   (assembled_word readyPage 5 sampleFrame amorPreds (by decide) (by decide)).2.2.1,
   (assembled_word readyPage 5 sampleFrame amorPreds (by decide) (by decide)).2.2.2.1,
   (assembled_word readyPage 5 sampleFrame amorPreds (by decide) (by decide)).2.2.2.2
      (by decide) (by decide)⟩

/-! ## Letter-count validation -/

theorem isDigit_toNat (c : Char) (h : c.isDigit = true) : 48 ≤ c.toNat ∧ c.toNat ≤ 57 := by
  simp only [Char.isDigit, Bool.and_eq_true, decide_eq_true_eq] at h
  obtain ⟨h1, h2⟩ := h
  have h1n : (48 : UInt32).toNat ≤ c.val.toNat := h1
  have h2n : c.val.toNat ≤ (57 : UInt32).toNat := h2
  exact ⟨h1n, h2n⟩

theorem digit_not_whiteSpace (c : Char) (h : c.isDigit = true) :
    isStrWhiteSpaceChar c = false := by
  have := isDigit_toNat c h
  simp [isStrWhiteSpaceChar]
  omega

theorem digit_not_sign (c : Char) (h : c.isDigit = true) : c ≠ '-' ∧ c ≠ '+' := by
  constructor <;> (rintro rfl; revert h; decide)

theorem dropWhile_whiteSpace (ws s : List Char)
    (hws : ∀ c ∈ ws, isStrWhiteSpaceChar c = true)
    (hs : ∀ c, s.head? = some c → isStrWhiteSpaceChar c = false) :
    (ws ++ s).dropWhile isStrWhiteSpaceChar = s := by
  induction ws with
  | nil =>
    cases s with
    | nil => rfl
    | cons c t => simp [List.dropWhile, hs c rfl]
  | cons w ws ih =>
    simp only [List.cons_append, List.dropWhile, hws w (List.mem_cons_self _ _)]
    exact ih (fun c hc => hws c (List.mem_cons_of_mem _ hc))

theorem takeWhile_digits (ds rest : List Char) (hds : ∀ c ∈ ds, c.isDigit = true)
    (hrest : ∀ c, rest.head? = some c → c.isDigit = false) :
    (ds ++ rest).takeWhile Char.isDigit = ds := by
  induction ds with
  | nil =>
    cases rest with
    | nil => rfl
    | cons c t => simp [List.takeWhile, hrest c rfl]
  | cons d ds ih =>
    simp only [List.cons_append, List.takeWhile, hds d (List.mem_cons_self _ _)]
    exact congrArg (List.cons d) (ih (fun c hc => hds c (List.mem_cons_of_mem _ hc)))

theorem foldl_digits (ds : List Char) (a : Nat) :
    ds.foldl (fun acc c => 10 * acc + (c.toNat - 48)) a
      = a * 10 ^ ds.length + decimalValue ds := by
  induction ds generalizing a with
  | nil => simp [decimalValue]
  | cons d ds ih =>
    simp only [List.foldl_cons, ih, decimalValue, List.length_cons]
    ring

theorem bitLengthAux_zero (fuel : Nat) : bitLengthAux fuel 0 = 0 := by
  cases fuel <;> simp [bitLengthAux]

theorem two_pow_bitLengthAux_le (fuel n : Nat) (hn : n ≠ 0) :
    2 ^ bitLengthAux fuel n ≤ 2 * n := by
  induction fuel generalizing n with
  | zero => simp [bitLengthAux]; omega
  | succ fuel ih =>
    simp only [bitLengthAux, hn, if_false]
    by_cases h2 : n / 2 = 0
    · rw [h2, bitLengthAux_zero]
      simp
      omega
    · have := ih (n / 2) h2
      rw [pow_succ]
      omega

theorem roundToDouble_exact (n : Nat) (h : n < 2 ^ 53) : roundToDouble n = some n := by
  unfold roundToDouble
  rw [if_pos h]

theorem le_roundedSignificand (n e : Nat) : n / 2 ^ e ≤ roundedSignificand n e := by
  unfold roundedSignificand
  dsimp only
  split <;> omega

theorem two_pow_exponent_le (n : Nat) (hn : 1 ≤ n) : 2 ^ (bitLength n - 53) ≤ n := by
  have hb : 2 ^ bitLength n ≤ 2 * n := two_pow_bitLengthAux_le n n (by omega)
  generalize bitLength n = b at hb
  cases b with
  | zero => simpa using hn
  | succ m =>
    have h1 : 2 ^ (m + 1 - 53) ≤ 2 ^ m := Nat.pow_le_pow_right (by decide) (by omega)
    have h2 : 2 ^ (m + 1) = 2 ^ m * 2 := pow_succ 2 m
    omega

theorem roundToDouble_pos (n v : Nat) (hn : 1 ≤ n) (h : roundToDouble n = some v) :
    1 ≤ v := by
  unfold roundToDouble at h
  by_cases hlt : n < 2 ^ 53
  · rw [if_pos hlt] at h
    cases h
    exact hn
  · rw [if_neg hlt] at h
    dsimp only at h
    have hq : 1 ≤ n / 2 ^ (bitLength n - 53) :=
      (Nat.one_le_div_iff (by positivity)).mpr (two_pow_exponent_le n hn)
    have hs := le_roundedSignificand n (bitLength n - 53)
    have hp : 1 ≤ 2 ^ (bitLength n - 53) := Nat.one_le_two_pow
    by_cases hov : 2 ^ 1024 ≤ roundedSignificand n (bitLength n - 53) * 2 ^ (bitLength n - 53)
    · rw [if_pos hov] at h
      cases h
    · rw [if_neg hov] at h
      cases h
      exact Nat.one_le_iff_ne_zero.mpr (Nat.mul_ne_zero (by omega) (by omega))

theorem toNumber_false_pos (n : Nat) (hn : 1 ≤ n) :
    toNumber false n = .posInf ∨ ∃ k : Nat, 1 ≤ k ∧ toNumber false n = .finite (k : Int) := by
  unfold toNumber
  cases h : roundToDouble n with
  | none => left; rfl
  | some v => right; exact ⟨v, roundToDouble_pos n v hn h, rfl⟩

theorem toNumber_true (n : Nat) :
    toNumber true n = .negInf ∨ ∃ k : Nat, toNumber true n = .finite (-(k : Int)) := by
  unfold toNumber
  cases h : roundToDouble n with
  | none => left; rfl
  | some v => right; exact ⟨v, rfl⟩

/-- The result of `parseInt` on a text made of white space, an optional sign, a run of
decimal digits that is not empty, and a rest that does not start with a digit. -/
theorem parseInt_digit_run (ws sg ds rest : List Char)
    (hws : ∀ c ∈ ws, isStrWhiteSpaceChar c = true)
    (hsg : sg = [] ∨ sg = ['+'] ∨ sg = ['-'])
    (hne : ds ≠ []) (hds : ∀ c ∈ ds, c.isDigit = true)
    (hrest : ∀ c, rest.head? = some c → c.isDigit = false) :
    parseInt (String.mk (ws ++ (sg ++ (ds ++ rest))))
      = toNumber (decide (sg = ['-'])) (decimalValue ds) := by
  obtain ⟨d, ds1, rfl⟩ := List.exists_cons_of_ne_nil hne
  have hd : d.isDigit = true := hds d (List.mem_cons_self _ _)
  have htake := takeWhile_digits (d :: ds1) rest hds hrest
  have hfold := foldl_digits (d :: ds1) 0
  unfold parseInt
  rcases hsg with rfl | rfl | rfl
  · have hdrop := dropWhile_whiteSpace ws ([] ++ (d :: ds1 ++ rest)) hws
      (by intro c hc; simp at hc; subst hc; exact digit_not_whiteSpace _ hd)
    simp only [String.toList, hdrop]
    have h1 : ¬ (d = '-') := (digit_not_sign d hd).1
    have h2 : ¬ (d = '+') := (digit_not_sign d hd).2
    simp only [List.nil_append, List.cons_append, List.head?_cons, Option.some.injEq, h1, h2,
      or_self, if_false, decide_False] at htake ⊢
    rw [htake]
    simp only [List.isEmpty_cons, Bool.false_eq_true, if_false]
    rw [hfold]
    simp
  · have hdrop := dropWhile_whiteSpace ws (['+'] ++ (d :: ds1 ++ rest)) hws
      (by intro c hc; simp at hc; subst hc; decide)
    simp only [String.toList, hdrop]
    simp only [List.singleton_append, List.head?_cons, Option.some.injEq, or_true, if_true,
      List.tail_cons]
    rw [htake]
    simp only [List.isEmpty_cons, Bool.false_eq_true, if_false]
    rw [hfold]
    simp
  · have hdrop := dropWhile_whiteSpace ws (['-'] ++ (d :: ds1 ++ rest)) hws
      (by intro c hc; simp at hc; subst hc; decide)
    simp only [String.toList, hdrop]
    simp only [List.singleton_append, List.head?_cons, true_or, if_true, List.tail_cons]
    rw [htake]
    simp only [List.isEmpty_cons, Bool.false_eq_true, if_false]
    rw [hfold]
    simp

/-- The result of `parseInt` on a text made of white space, an optional sign, and a rest
that does not start with a digit: no digit run, `NaN`. -/
theorem parseInt_no_digit_run (ws sg rest : List Char)
    (hws : ∀ c ∈ ws, isStrWhiteSpaceChar c = true)
    (hsg : sg = [] ∨ sg = ['+'] ∨ sg = ['-'])
    (hrest : ∀ c, rest.head? = some c → c.isDigit = false)
    (hplain : sg = [] → ∀ c, rest.head? = some c →
      isStrWhiteSpaceChar c = false ∧ c ≠ '-' ∧ c ≠ '+') :
    parseInt (String.mk (ws ++ (sg ++ rest))) = .nan := by
  have htake := takeWhile_digits [] rest (by simp) hrest
  simp only [List.nil_append] at htake
  unfold parseInt
  rcases hsg with rfl | rfl | rfl
  · have hdrop := dropWhile_whiteSpace ws rest hws
      (by intro c hc; exact (hplain rfl c hc).1)
    simp only [String.toList, List.nil_append, hdrop]
    have hno : ¬ (rest.head? = some '-' ∨ rest.head? = some '+') := by
      rintro (h | h)
      · exact (hplain rfl _ h).2.1 rfl
      · exact (hplain rfl _ h).2.2 rfl
    rw [if_neg hno, htake]
    rfl
  · have hdrop := dropWhile_whiteSpace ws (['+'] ++ rest) hws
      (by intro c hc; simp at hc; subst hc; decide)
    simp only [String.toList, hdrop]
    simp only [List.singleton_append, List.head?_cons, Option.some.injEq, or_true, if_true,
      List.tail_cons]
    rw [htake]
    rfl
  · have hdrop := dropWhile_whiteSpace ws (['-'] ++ rest) hws
      (by intro c hc; simp at hc; subst hc; decide)
    simp only [String.toList, hdrop]
    simp only [List.singleton_append, List.head?_cons, true_or, if_true, List.tail_cons]
    rw [htake]
    rfl

theorem captureDecision_refuse_iff (text : String) :
    captureDecision text = .refuse
      ↔ (parseInt text = .nan ∨ parseInt text = .negInf
          ∨ ∃ v, parseInt text = .finite v ∧ v < 1) := by
  unfold captureDecision
  cases hp : parseInt text with
  | nan => simp
  | negInf => simp
  | posInf => simp
  | finite v =>
    by_cases hv : v < 1
    · simp [hv]
    · simp [hv]

theorem captureDecision_invoke (text : String) (n : JSNumber)
    (h : captureDecision text = .invoke n) :
    parseInt text = n ∧ (n = .posInf ∨ ∃ k : Nat, 1 ≤ k ∧ n = .finite (k : Int)) := by
  unfold captureDecision at h
  cases hp : parseInt text with
  | nan => rw [hp] at h; simp at h
  | negInf => rw [hp] at h; simp at h
  | posInf =>
    rw [hp] at h
    simp only [CaptureDecision.invoke.injEq] at h
    exact ⟨h, Or.inl h.symm⟩
  | finite v =>
    rw [hp] at h
    by_cases hv : v < 1
    · simp [hv] at h
    · simp only [hv, if_false, CaptureDecision.invoke.injEq] at h
      refine ⟨h, Or.inr ⟨v.toNat, by omega, ?_⟩⟩
      rw [← h, Int.toNat_of_nonneg (by omega)]

theorem captureDecision_of_unsigned (text : String) (n : Nat)
    (h : parseInt text = toNumber false n) :
    captureDecision text = if n = 0 then .refuse else .invoke (toNumber false n) := by
  unfold captureDecision
  rw [h]
  by_cases hn : n = 0
  · subst hn
    simp [toNumber, roundToDouble_exact 0 (by positivity)]
  · rw [if_neg hn]
    rcases toNumber_false_pos n (by omega) with hinf | ⟨k, hk, hfin⟩
    · rw [hinf]
    · rw [hfin]
      have : ¬ ((k : Int) < 1) := by omega
      simp [this]

theorem captureDecision_of_negative (text : String) (n : Nat)
    (h : parseInt text = toNumber true n) : captureDecision text = .refuse := by
  unfold captureDecision
  rw [h]
  rcases toNumber_true n with hinf | ⟨k, hfin⟩
  · rw [hinf]
  · rw [hfin]
    have : (-(k : Int)) < 1 := by omega
    simp [this]

set_option exponentiation.threshold 2000 in
set_option maxRecDepth 100000 in
/-- Claim C6, refuted as stated: the texts "3abc" and "2.5" do not denote an integer, yet the
capture handler does not refuse them; it invokes `predictWordFromImage` with 3 and with 2,
and on a ready page that call stops the camera.  The argument is not always the integer
written nor always an integer: "9007199254740993" passes 9007199254740992, and a 1 followed
by 309 zeros passes `Infinity`. -/
theorem captureBtn_accepts_digit_led_text :
    specDenotesInteger "3abc" = false ∧ captureDecision "3abc" = .invoke (.finite 3) ∧
    specDenotesInteger "2.5" = false ∧ captureDecision "2.5" = .invoke (.finite 2) ∧
    readyPage.streamStarted = true ∧
    (captureBtnClick readyPage "3abc" sampleFrame (some amorPreds)).state.streamStarted
      = false ∧
    captureDecision "9007199254740993" = .invoke (.finite 9007199254740992) ∧
    captureDecision (String.mk ('1' :: List.replicate 309 '0')) = .invoke .posInf := by
  have h3 : captureDecision "3abc" = .invoke (.finite 3) := by decide
  refine ⟨by decide, h3, by decide, by decide, by decide, ?_, by decide, by decide⟩
  unfold captureBtnClick
  rw [h3]
  have hrun := predictWordFromImageOnHost_returns readyPage 3 sampleFrame amorPreds
    (by decide) (by decide) (by decide) (by decide)
  have hst : (predictWordFromImageOnHost readyPage (.finite 3) sampleFrame
      (some amorPreds)).state = predictWordFromImage readyPage 3 sampleFrame amorPreds :=
    congrArg CaptureRun.state hrun
  show (predictWordFromImageOnHost readyPage (.finite 3) sampleFrame
      (some amorPreds)).state.streamStarted = false
  rw [hst, predictWordFromImage_ready readyPage 3 sampleFrame amorPreds (by decide)]
  unfold reportWord speak
  split <;> rfl

/-- Claim C6, amended: the capture handler refuses exactly the texts for which
`parseInt(text, 10)` is `NaN` or less than 1; on such a text `predictWordFromImage` is not
invoked and the page state is the given one with only the invalid-number utterance appended.
These are the texts that, after leading white space and an optional sign, have no decimal
digit, or have a minus sign before their digits, or have digits of value 0.  A text whose
digits, unsigned or after a plus sign, have a positive value is accepted whatever follows the
digits, with the double nearest to that value: the value itself below `2 ^ 53`.  Whenever the
handler invokes `predictWordFromImage`, the argument is the parsed number and it is a
positive integer or `Infinity`. -/
theorem captureBtn_refusal (st : State) (text : String) (frame : Frame)
    (model : Option (Nat → Prediction)) (ws sg ds rest : List Char) :
    (captureDecision text = .refuse
      ↔ (parseInt text = .nan ∨ parseInt text = .negInf
          ∨ ∃ v, parseInt text = .finite v ∧ v < 1)) ∧
    (captureDecision text = .refuse →
      captureBtnClick st text frame model
        = { state := { st with
              spoken := st.spoken ++ ["Por favor, indica un número válido de letras."] },
            extracted := [], thrown := none }) ∧
    (∀ n, captureDecision text = .invoke n →
      parseInt text = n ∧ (n = .posInf ∨ ∃ k : Nat, 1 ≤ k ∧ n = .finite (k : Int))
        ∧ captureBtnClick st text frame model
            = predictWordFromImageOnHost st n frame model) ∧
    ((∀ c ∈ ws, isStrWhiteSpaceChar c = true) → (sg = [] ∨ sg = ['+'] ∨ sg = ['-']) →
      (∀ c, rest.head? = some c → c.isDigit = false) →
      (sg = [] → ∀ c, rest.head? = some c →
        isStrWhiteSpaceChar c = false ∧ c ≠ '-' ∧ c ≠ '+') →
      captureDecision (String.mk (ws ++ (sg ++ rest))) = .refuse) ∧
    ((∀ c ∈ ws, isStrWhiteSpaceChar c = true) → ds ≠ [] → (∀ c ∈ ds, c.isDigit = true) →
      (∀ c, rest.head? = some c → c.isDigit = false) →
      captureDecision (String.mk (ws ++ (['-'] ++ (ds ++ rest)))) = .refuse) ∧
    ((∀ c ∈ ws, isStrWhiteSpaceChar c = true) → (sg = [] ∨ sg = ['+']) → ds ≠ [] →
      (∀ c ∈ ds, c.isDigit = true) → (∀ c, rest.head? = some c → c.isDigit = false) →
      captureDecision (String.mk (ws ++ (sg ++ (ds ++ rest))))
        = (if decimalValue ds = 0 then .refuse
           else .invoke (toNumber false (decimalValue ds)))
      ∧ (decimalValue ds < 2 ^ 53 →
          toNumber false (decimalValue ds) = .finite (decimalValue ds : Int))) := by
  refine ⟨captureDecision_refuse_iff text, ?_, ?_, ?_, ?_, ?_⟩
  · intro hd
    unfold captureBtnClick
    rw [hd]
    rfl
  · intro n hn
    obtain ⟨h1, h2⟩ := captureDecision_invoke text n hn
    refine ⟨h1, h2, ?_⟩
    unfold captureBtnClick
    rw [hn]
  · intro hws hsg hrest hplain
    exact (captureDecision_refuse_iff _).mpr
      (Or.inl (parseInt_no_digit_run ws sg rest hws hsg hrest hplain))
  · intro hws hne hds hrest
    have hp := parseInt_digit_run ws ['-'] ds rest hws (Or.inr (Or.inr rfl)) hne hds hrest
    exact captureDecision_of_negative _ (decimalValue ds) (by rw [hp]; rfl)
  · intro hws hsg hne hds hrest
    have hp := parseInt_digit_run ws sg ds rest hws
      (hsg.elim Or.inl (fun h => Or.inr (Or.inl h))) hne hds hrest
    have hneg : decide (sg = ['-']) = false := by
      rcases hsg with rfl | rfl <;> decide
    rw [hneg] at hp
    refine ⟨captureDecision_of_unsigned _ (decimalValue ds) hp, ?_⟩
    intro hlt
    simp [toNumber, roundToDouble_exact _ hlt]

theorem captureBtn_refusal_witness :
    captureBtnClick readyPage "abc" sampleFrame (some amorPreds)
      = { state := { readyPage with
            spoken := readyPage.spoken ++ ["Por favor, indica un número válido de letras."] },
          extracted := [], thrown := none } ∧
    (parseInt " 4 letras" = .finite 4
      ∧ (JSNumber.finite 4 = .posInf ∨ ∃ k : Nat, 1 ≤ k ∧ JSNumber.finite 4 = .finite (k : Int))
      ∧ captureBtnClick readyPage " 4 letras" sampleFrame (some amorPreds)
          = predictWordFromImageOnHost readyPage (.finite 4) sampleFrame (some amorPreds)) ∧
    captureDecision (String.mk ([' '] ++ (['+'] ++ ['x', '1']))) = .refuse ∧
    captureDecision (String.mk ([' '] ++ (['-'] ++ (['1', '2'] ++ ['x'])))) = .refuse ∧
    (captureDecision (String.mk ([' '] ++ ([] ++ (['1', '2'] ++ ['.', '5']))))
        = (if decimalValue ['1', '2'] = 0 then .refuse
           else .invoke (toNumber false (decimalValue ['1', '2'])))
      ∧ (decimalValue ['1', '2'] < 2 ^ 53 →
          toNumber false (decimalValue ['1', '2']) = .finite (decimalValue ['1', '2'] : Int))) :=
  ⟨(captureBtn_refusal readyPage "abc" sampleFrame (some amorPreds) [] [] [] []).2.1
      (by decide),
   (captureBtn_refusal readyPage " 4 letras" sampleFrame (some amorPreds) [] [] [] []).2.2.1
      (.finite 4) (by decide),
   (captureBtn_refusal readyPage "" sampleFrame none [' '] ['+'] [] ['x', '1']).2.2.2.1
      (by decide) (by decide) (by decide) (by decide),
   (captureBtn_refusal readyPage "" sampleFrame none [' '] [] ['1', '2'] ['x']).2.2.2.2.1
      (by decide) (by decide) (by decide) (by decide),
   (captureBtn_refusal readyPage "" sampleFrame none [' '] [] ['1', '2'] ['.', '5']).2.2.2.2.2
      (by decide) (by decide) (by decide) (by decide) (by decide)⟩

/-! ## Denied camera access -/

/-- Claim C8, evaluated on the code: when `getUserMedia` is denied, the start handler leaves
the capture button and the ready flag as they were, but the reset handler, after showing the
denial message, enables the capture button and disables the reset and start buttons. -/
theorem resetBtnClick_denied_enables_capture (st : State) :
    (resetBtnClick st .notAllowed).instructions = "Acceso a la cámara denegado." ∧
    (resetBtnClick st .notAllowed).captureDisabled = false ∧
    (resetBtnClick st .notAllowed).resetDisabled = true ∧
    (resetBtnClick st .notAllowed).startDisabled = true ∧
    (resetBtnClick st .notAllowed).streamStarted = st.streamStarted ∧
    (startBtnClick st .notAllowed).instructions = "Acceso a la cámara denegado." ∧
    (startBtnClick st .notAllowed).captureDisabled = st.captureDisabled ∧
    (startBtnClick st .notAllowed).streamStarted = st.streamStarted ∧
    (resetBtnClick
        (predictWordFromImage (startBtnClick blankPage (.granted 1)) 1 sampleFrame amorPreds)
        .notAllowed).captureDisabled = false := by
  unfold resetBtnClick startBtnClick startCamera startCameraRequest startCameraSettle
    stopTracks speak alert
  cases st.stream <;> simp

/-! ## Exclusive camera stream -/

theorem stopTracks_liveStreams (st : State) (h : CameraInv st) :
    (stopTracks st).liveStreams = [] := by
  unfold stopTracks
  rcases h with h | ⟨s, hs, hl⟩
  · cases hs : st.stream <;> simp [h]
  · simp [hs, hl]

theorem startCameraRequest_liveStreams (st : State) (h : CameraInv st) :
    (startCameraRequest st).liveStreams = [] :=
  stopTracks_liveStreams
    (speak { st with instructions := "Solicitando acceso a la cámara..." }
      "Solicitando acceso a la cámara...") h

theorem startCamera_granted_liveStreams (st : State) (s : Nat) (h : CameraInv st) :
    (startCamera st (.granted s)).liveStreams = [s]
      ∧ (startCamera st (.granted s)).stream = some s := by
  have hl := startCameraRequest_liveStreams st h
  constructor
  · show (startCameraRequest st).liveStreams ++ [s] = [s]
    rw [hl]; rfl
  · rfl

theorem startCamera_inv (st : State) (r : MediaResult) (h : CameraInv st) :
    CameraInv (startCamera st r) := by
  have hl := startCameraRequest_liveStreams st h
  cases r with
  | granted s =>
    exact Or.inr ⟨s, (startCamera_granted_liveStreams st s h).2,
      (startCamera_granted_liveStreams st s h).1⟩
  | notAllowed => exact Or.inl hl
  | notFound => exact Or.inl hl
  | otherError => exact Or.inl hl

theorem stopCamera_inv (st : State) (h : CameraInv st) : CameraInv (stopCamera st) :=
  Or.inl (stopTracks_liveStreams st h)

theorem freezeFrame_liveStreams (st : State) (frame : Frame) (h : CameraInv st) :
    (freezeFrame st frame).liveStreams = [] :=
  stopTracks_liveStreams
    { st with canvasWidth := frame.videoWidth, canvasHeight := frame.videoHeight,
              canvasImage := some frame.image } h

theorem reportWord_liveStreams (st : State) (word : List String) :
    (reportWord st word).liveStreams = st.liveStreams := by
  unfold reportWord speak
  split <;> rfl

theorem predictWordFromImage_inv (st : State) (n : Nat) (frame : Frame)
    (preds : Nat → Prediction) (h : CameraInv st) :
    CameraInv (predictWordFromImage st n frame preds) := by
  cases hr : st.streamStarted with
  | false =>
    have heq : predictWordFromImage st n frame preds
        = { st with spoken := st.spoken ++ ["Primero debes activar la cámara."] } := by
      unfold predictWordFromImage
      simp [hr, speak]
    rw [heq]
    exact h
  | true =>
    left
    rw [predictWordFromImage_ready st n frame preds hr, reportWord_liveStreams]
    exact freezeFrame_liveStreams st frame h

theorem resetBtnClick_eq_halves (st : State) (r : MediaResult) :
    resetBtnClick st r = resetBtnClickSettle (resetBtnClickRequest st) r := rfl

theorem frozenPage_inv : CameraInv frozenPage :=
  predictWordFromImage_inv _ 1 sampleFrame amorPreds
    (Or.inr ⟨1, rfl, rfl⟩)

theorem frozenPage_stream : frozenPage.stream = some 1 := by
  unfold frozenPage
  rw [predictWordFromImage_ready _ 1 sampleFrame amorPreds (by decide)]
  unfold reportWord speak
  split <;> rfl

theorem frozenPage_resetDisabled : frozenPage.resetDisabled = false := by
  unfold frozenPage
  rw [predictWordFromImage_ready _ 1 sampleFrame amorPreds (by decide)]
  unfold reportWord speak
  split <;> rfl

theorem overlapping_requests_liveStreams (st : State) (a b : Nat) (h : CameraInv st) :
    (startCameraSettle (startCameraSettle (startCameraRequest (startCameraRequest st))
        (.granted a)) (.granted b)).liveStreams = [a, b] := by
  have h1 : (startCameraRequest st).liveStreams = [] := startCameraRequest_liveStreams st h
  have h2 : (startCameraRequest (startCameraRequest st)).liveStreams = [] :=
    startCameraRequest_liveStreams _ (Or.inl h1)
  show ((startCameraRequest (startCameraRequest st)).liveStreams ++ [a]) ++ [b] = [a, b]
  rw [h2]
  rfl

theorem resetBtnClickRequest_liveStreams (st : State) (h : CameraInv st) :
    (resetBtnClickRequest st).liveStreams = [] :=
  startCameraRequest_liveStreams
    (speak { st with capturedImageDisplay := "none", output := "Esperando...",
                     instructions := "Reiniciando cámara..." }
      "Puedes capturar otra palabra.") h

theorem resetBtnClickRequest_resetDisabled (st : State) :
    (resetBtnClickRequest st).resetDisabled = st.resetDisabled := by
  unfold resetBtnClickRequest startCameraRequest stopTracks speak
  cases st.stream <;> rfl

/-- Claim C9, evaluated on the code: on the page frozen after a capture the variable `stream`
holds stream 1, stopped, and the reset button is enabled.  A click on reset runs up to
`await getUserMedia` and leaves the reset button enabled, so a second click runs while the
first is pending.  Each call stops the tracks of the old stream before its request, so no
stream is live at that point; when the two requests are then granted streams 2 and 3, the
variable `stream` holds stream 3 and both streams are live, stream 2 being held by nothing
that could stop it.  Two overlapping calls of `startCamera` on the ready page do the same,
while two calls made one after the other leave only stream 3 live. -/
theorem overlapping_resets_two_live_streams :
    frozenPage.stream = some 1 ∧ frozenPage.liveStreams = [] ∧
    frozenPage.resetDisabled = false ∧
    (resetBtnClickRequest frozenPage).resetDisabled = false ∧
    (resetBtnClickRequest frozenPage).liveStreams = [] ∧
    (resetBtnClickRequest (resetBtnClickRequest frozenPage)).liveStreams = [] ∧
    (resetBtnClickSettle
        (resetBtnClickSettle (resetBtnClickRequest (resetBtnClickRequest frozenPage))
          (.granted 2))
        (.granted 3)).liveStreams = [2, 3] ∧
    (resetBtnClickSettle
        (resetBtnClickSettle (resetBtnClickRequest (resetBtnClickRequest frozenPage))
          (.granted 2))
        (.granted 3)).stream = some 3 ∧
    (startCameraSettle (startCameraSettle (startCameraRequest (startCameraRequest readyPage))
        (.granted 2)) (.granted 3)).liveStreams = [2, 3] ∧
    (startCamera (startCamera readyPage (.granted 2)) (.granted 3)).liveStreams = [3] := by
  have hlive : frozenPage.liveStreams = [] := by
    rcases frozenPage_inv with h | ⟨s, _, hl⟩
    · exact h
    · unfold frozenPage at hl ⊢
      rw [predictWordFromImage_ready _ 1 sampleFrame amorPreds (by decide),
        reportWord_liveStreams] at hl ⊢
      exact freezeFrame_liveStreams _ sampleFrame (Or.inr ⟨1, rfl, rfl⟩)
  have h1 := resetBtnClickRequest_liveStreams frozenPage frozenPage_inv
  have h2 := resetBtnClickRequest_liveStreams (resetBtnClickRequest frozenPage) (Or.inl h1)
  refine ⟨frozenPage_stream, hlive, frozenPage_resetDisabled, ?_, h1, h2, ?_, rfl, ?_, ?_⟩
  · rw [resetBtnClickRequest_resetDisabled, frozenPage_resetDisabled]
  · show ((resetBtnClickRequest (resetBtnClickRequest frozenPage)).liveStreams ++ [2]) ++ [3]
      = [2, 3]
    rw [h2]
    rfl
  · exact overlapping_requests_liveStreams readyPage 2 3 (Or.inr ⟨1, rfl, rfl⟩)
  · exact (startCamera_granted_liveStreams _ 3
      (startCamera_inv readyPage (.granted 2) (Or.inr ⟨1, rfl, rfl⟩))).1

end Braille
